import Mathlib

/-!
Shallow embedding of the RTP-Simulation repository's guidance-potential
computation (src/model/potential_calculation.py) and object factory
(src/build/object_factory.py), with theorems settling the frozen claims.

Python floats are modelled as real numbers; integer grid coordinates as ℤ.
The substrate matrices are modelled as total functions ℤ → ℤ → ℝ together
with their declared shape (rows, cols); an Option-returning indexed read is
provided to state the in-bounds safety claim.
-/

namespace RTP

/-- Substrate: rows × cols grid carrying ligand and receptor matrices
(model/substrate is external to the core; the core only reads `ligands`,
`receptors`, `rows`, `cols`). -/
structure Substrate where
  rows : ℕ
  cols : ℕ
  ligands : ℤ → ℤ → ℝ
  receptors : ℤ → ℤ → ℝ

/-- GrowthCone state consumed by the potential calculation: stable id,
circular radius `size`, current and candidate positions, signal levels. -/
structure GrowthCone where
  id : ℕ
  size : ℤ
  pos_current : ℤ × ℤ
  pos_new : ℤ × ℤ
  ligand_current : ℝ
  receptor_current : ℝ

/-- Coercion of an integer grid point to a real point. -/
def toR (p : ℤ × ℤ) : ℝ × ℝ := ((p.1 : ℝ), (p.2 : ℝ))

/-- Embeds euclidean_distance: `math.sqrt((x2 - x1) ** 2 + (y2 - y1) ** 2)`. -/
noncomputable def euclidean_distance (point1 point2 : ℝ × ℝ) : ℝ :=
  Real.sqrt ((point2.1 - point1.1) ^ 2 + (point2.2 - point1.2) ^ 2)

/-- Embeds intersection_area: area of intersection of the two equal-radius
circles around gc1_pos and gc2_pos, with the code's empirical 1.5 factor on
the partial-overlap branch. -/
noncomputable def intersection_area (gc1_pos gc2_pos : ℤ × ℤ) (radius : ℤ) : ℝ :=
  let d := euclidean_distance (toR gc1_pos) (toR gc2_pos)
  if d = 0 then
    (radius : ℝ) * (radius : ℝ) * Real.pi
  else if (radius : ℝ) * 2 < d then
    0
  else
    let x := d ^ 2 / (2 * d)
    let z := x ^ 2
    let y := Real.sqrt ((radius : ℝ) ^ 2 - z)
    ((radius : ℝ) ^ 2 * Real.arccos (x / (radius : ℝ)) - x * y) * 1.5

/-- Embeds bounding_box: clips the square [pos - size, pos + size]² to the
substrate bounds on both axes; returns (x_min, x_max, y_min, y_max). -/
def bounding_box (gc_pos : ℤ × ℤ) (gc_size : ℤ) (substrate : Substrate) :
    ℤ × ℤ × ℤ × ℤ :=
  (max 0 (gc_pos.1 - gc_size), min ((substrate.cols : ℤ) - 1) (gc_pos.1 + gc_size),
   max 0 (gc_pos.2 - gc_size), min ((substrate.rows : ℤ) - 1) (gc_pos.2 + gc_size))

/-- Integer range [a, b): the list a, a+1, ..., b-1, empty when b ≤ a
(embeds Python range(a, b)). -/
def intRange (a b : ℤ) : List ℤ :=
  (List.range (b - a).toNat).map (fun (k : ℕ) => a + (k : ℤ))

/-- Cell list iterated by ft_interaction: pairs (i, j) with i from the y-range
and j from the x-range of the borders (x_min, x_max, y_min, y_max). -/
def ftCells (borders : ℤ × ℤ × ℤ × ℤ) : List (ℤ × ℤ) :=
  (intRange borders.2.2.1 borders.2.2.2).flatMap
    (fun i => (intRange borders.1 borders.2.1).map (fun j => (i, j)))

/-- Embeds ft_interaction: sums substrate ligand and receptor values over the
cells of the clipped bounding box whose distance to the box's center is at
most half the box's y-extent (the code's edge_length); cells beyond that
distance are skipped by the continue branch. -/
noncomputable def ft_interaction (gc : GrowthCone) (substrate : Substrate) : ℝ × ℝ :=
  let borders := bounding_box gc.pos_new gc.size substrate
  let edge_length : ℤ := |borders.2.2.1 - borders.2.2.2|
  let center : ℝ × ℝ :=
    (((borders.2.2.1 : ℝ) + (borders.2.2.2 : ℝ)) / 2,
     ((borders.1 : ℝ) + (borders.2.1 : ℝ)) / 2)
  (ftCells borders).foldl (fun sums c =>
    if (edge_length : ℝ) / 2 < euclidean_distance center (toR c) then sums
    else (sums.1 + substrate.ligands c.1 c.2, sums.2 + substrate.receptors c.1 c.2))
    (0, 0)

/-- Embeds ff_interaction: accumulates intersection areas scaled by the other
cones' ligand/receptor levels over all other cones within distance 2 · size of
the candidate position. The Python identity test `gc1 == gc2` (object
identity) is modelled as equality of the stable integer id. -/
noncomputable def ff_interaction (gc1 : GrowthCone) (gcs : List GrowthCone) : ℝ × ℝ :=
  gcs.foldl (fun sums gc2 =>
    if gc1.id = gc2.id then sums
    else
      let d := euclidean_distance (toR gc2.pos_current) (toR gc1.pos_new)
      if d < (gc1.size : ℝ) * 2 then
        let area := intersection_area gc1.pos_new gc2.pos_current gc1.size
        (sums.1 + area * gc2.ligand_current, sums.2 + area * gc2.receptor_current)
      else sums)
    (0, 0)

/-- Embeds calculate_ff_coef: shifted step ratio fed through
(ratio · shift)^steepness, clipped below at 1e-10, then through the
saturating map x ↦ 1 − exp(−x), scaled by sigmoid_height. The Python `**`
on positive floats is real rpow; np.clip with only a lower bound is max. -/
noncomputable def calculate_ff_coef (step num_steps sigmoid_steepness sigmoid_shift
    sigmoid_height : ℝ) : ℝ :=
  let step2 := step + num_steps * 0.01
  let step_ratio := step2 / num_steps
  let sigmoid_adjustment := (step_ratio * sigmoid_shift) ^ sigmoid_steepness
  let safe_sigmoid := max sigmoid_adjustment 1e-10
  (-Real.exp (-safe_sigmoid) + 1) * sigmoid_height

/-- Embeds float("{:.6f}".format(x)): rounding to 6 decimal places, modelled
as rounding to the nearest multiple of 1e-6. -/
noncomputable def round6 (x : ℝ) : ℝ := ((round (x * 1000000) : ℤ) : ℝ) / 1000000

/-- The FT term pair (ft_ligands, ft_receptors): the initial (0, 0) unless
ft_inter_on, in which case ft_interaction supplies it. -/
noncomputable def ft_terms (gc : GrowthCone) (substrate : Substrate)
    (ft_inter_on : Bool) : ℝ × ℝ :=
  if ft_inter_on then ft_interaction gc substrate else (0, 0)

/-- The FF term pair (ff_ligands, ff_receptors): the initial (0, 0) unless
ff_inter_on, in which case ff_interaction supplies it. -/
noncomputable def ff_terms (gc : GrowthCone) (gcs : List GrowthCone)
    (ff_inter_on : Bool) : ℝ × ℝ :=
  if ff_inter_on then ff_interaction gc gcs else (0, 0)

/-- The forward signal local of calculate_potential:
receptor_current · (ft_ligands + ligand_current + ff_coef · ff_ligands) when
forward_on, else the initial 0. -/
noncomputable def forward_sig (gc : GrowthCone) (gcs : List GrowthCone)
    (substrate : Substrate) (ff_coef : ℝ) (forward_on ff_inter_on ft_inter_on : Bool) : ℝ :=
  if forward_on then
    gc.receptor_current *
      ((ft_terms gc substrate ft_inter_on).1 + gc.ligand_current +
        ff_coef * (ff_terms gc gcs ff_inter_on).1)
  else 0

/-- The reverse signal local of calculate_potential:
ligand_current · (ft_receptors + receptor_current + ff_coef · ff_receptors)
when reverse_on, else the initial 0. -/
noncomputable def reverse_sig (gc : GrowthCone) (gcs : List GrowthCone)
    (substrate : Substrate) (ff_coef : ℝ) (reverse_on ff_inter_on ft_inter_on : Bool) : ℝ :=
  if reverse_on then
    gc.ligand_current *
      ((ft_terms gc substrate ft_inter_on).2 + gc.receptor_current +
        ff_coef * (ff_terms gc gcs ff_inter_on).2)
  else 0

/-- Embeds calculate_potential: rounds both signals to 6 decimal places,
returns 0 when both rounded signals are 0, and otherwise the absolute log
difference with zero signals floored to 0.0001 (Python `x or 0.0001`
replaces the rounded value 0 by 0.0001). -/
noncomputable def calculate_potential (gc : GrowthCone) (gcs : List GrowthCone)
    (substrate : Substrate) (ff_coef : ℝ)
    (forward_on reverse_on ff_inter_on ft_inter_on : Bool) : ℝ :=
  let f := round6 (forward_sig gc gcs substrate ff_coef forward_on ff_inter_on ft_inter_on)
  let r := round6 (reverse_sig gc gcs substrate ff_coef reverse_on ff_inter_on ft_inter_on)
  if f = 0 ∧ r = 0 then 0
  else |Real.log (if r = 0 then 0.0001 else r) - Real.log (if f = 0 then 0.0001 else f)|

/-- Restates the claimed calculate_potential algorithm in the specification's
wording: interaction pairs gated by the flags, the two gated signals,
6-decimal rounding, the both-zero test, and the floored absolute log
difference. Compared against calculate_potential, which is transcribed from
the code. -/
noncomputable def calculate_potential_spec (gc : GrowthCone) (gcs : List GrowthCone)
    (substrate : Substrate) (ff_coef : ℝ)
    (forward_on reverse_on ff_inter_on ft_inter_on : Bool) : ℝ :=
  let ftPair := if ft_inter_on then ft_interaction gc substrate else (0, 0)
  let ffPair := if ff_inter_on then ff_interaction gc gcs else (0, 0)
  let forwardSig : ℝ :=
    if forward_on then
      gc.receptor_current * (ftPair.1 + gc.ligand_current + ff_coef * ffPair.1)
    else 0
  let reverseSig : ℝ :=
    if reverse_on then
      gc.ligand_current * (ftPair.2 + gc.receptor_current + ff_coef * ffPair.2)
    else 0
  let fr := round6 forwardSig
  let rr := round6 reverseSig
  if fr = 0 ∧ rr = 0 then 0
  else |Real.log (if rr = 0 then 0.0001 else rr) - Real.log (if fr = 0 then 0.0001 else fr)|

/-- Exchanges a cone's ligand and receptor levels (positions, size and id
unchanged). -/
def swapGC (gc : GrowthCone) : GrowthCone :=
  { gc with ligand_current := gc.receptor_current, receptor_current := gc.ligand_current }

/-- Exchanges the substrate's ligand and receptor matrices (shape unchanged). -/
def swapSubstrate (s : Substrate) : Substrate :=
  { s with ligands := s.receptors, receptors := s.ligands }

/-- A growth cone with both signal levels zero. -/
noncomputable def zeroGC : GrowthCone :=
  { id := 0, size := 5, pos_current := (0, 0), pos_new := (0, 0),
    ligand_current := 0, receptor_current := 0 }

/-- A 10 × 10 substrate whose matrices are identically zero. -/
noncomputable def trivialSubstrate : Substrate :=
  { rows := 10, cols := 10, ligands := fun _ _ => 0, receptors := fun _ _ => 0 }

/-- Restates the claimed FF accumulation in the specification's wording: over
every other cone (self excluded by identity, modelled by the stable id) whose
current position is strictly closer than 2 · size to the candidate position,
sum intersection_area · ligand_current and intersection_area ·
receptor_current. -/
noncomputable def ff_interaction_spec (gc1 : GrowthCone) (gcs : List GrowthCone) : ℝ × ℝ :=
  let near := gcs.filter (fun gc2 =>
    decide (gc1.id ≠ gc2.id ∧
      euclidean_distance (toR gc2.pos_current) (toR gc1.pos_new) < (gc1.size : ℝ) * 2))
  ((near.map (fun gc2 =>
      intersection_area gc1.pos_new gc2.pos_current gc1.size * gc2.ligand_current)).sum,
   (near.map (fun gc2 =>
      intersection_area gc1.pos_new gc2.pos_current gc1.size * gc2.receptor_current)).sum)

/-- Restates the claimed FT footprint sum in the specification's wording:
center is the midpoint of the clipped bounding box, the effective radius is
half the clipped box's edge length (the code's y-extent), and the sums range
over exactly the box cells whose distance to the center is at most that
radius. -/
noncomputable def ft_interaction_spec (gc : GrowthCone) (substrate : Substrate) : ℝ × ℝ :=
  let borders := bounding_box gc.pos_new gc.size substrate
  let center : ℝ × ℝ :=
    (((borders.2.2.1 : ℝ) + (borders.2.2.2 : ℝ)) / 2,
     ((borders.1 : ℝ) + (borders.2.1 : ℝ)) / 2)
  let radius : ℝ := ((|borders.2.2.1 - borders.2.2.2| : ℤ) : ℝ) / 2
  let inside := (ftCells borders).filter
    (fun c => decide (euclidean_distance center (toR c) ≤ radius))
  ((inside.map (fun c => substrate.ligands c.1 c.2)).sum,
   (inside.map (fun c => substrate.receptors c.1 c.2)).sum)

/-- Option-returning indexed read of the ligand matrix: some value when the
indices lie within the declared shape, none otherwise. -/
def Substrate.ligandAt (s : Substrate) (i j : ℤ) : Option ℝ :=
  if 0 ≤ i ∧ i < (s.rows : ℤ) ∧ 0 ≤ j ∧ j < (s.cols : ℤ) then some (s.ligands i j) else none

/-- Option-returning indexed read of the receptor matrix. -/
def Substrate.receptorAt (s : Substrate) (i j : ℤ) : Option ℝ :=
  if 0 ≤ i ∧ i < (s.rows : ℤ) ∧ 0 ≤ j ∧ j < (s.cols : ℤ) then some (s.receptors i j) else none

/-- The same iteration as ft_interaction, but with every matrix read going
through the Option-returning indexed accessors: the whole computation fails
if any read is out of bounds. -/
noncomputable def ft_interaction_checked (gc : GrowthCone) (substrate : Substrate) :
    Option (ℝ × ℝ) :=
  let borders := bounding_box gc.pos_new gc.size substrate
  let edge_length : ℤ := |borders.2.2.1 - borders.2.2.2|
  let center : ℝ × ℝ :=
    (((borders.2.2.1 : ℝ) + (borders.2.2.2 : ℝ)) / 2,
     ((borders.1 : ℝ) + (borders.2.1 : ℝ)) / 2)
  (ftCells borders).foldlM (fun sums c =>
    if (edge_length : ℝ) / 2 < euclidean_distance center (toR c) then pure sums
    else do
      let lig ← substrate.ligandAt c.1 c.2
      let rcp ← substrate.receptorAt c.1 c.2
      pure (sums.1 + lig, sums.2 + rcp)) ((0 : ℝ), (0 : ℝ))

/-- A cone of radius 1 at the origin with unit levels. -/
noncomputable def gcA : GrowthCone :=
  { id := 0, size := 1, pos_current := (0, 0), pos_new := (0, 0),
    ligand_current := 1, receptor_current := 1 }

/-- A cone of radius 1 whose current position is at distance 2 from the
origin. -/
noncomputable def gcB : GrowthCone :=
  { id := 1, size := 1, pos_current := (2, 0), pos_new := (2, 0),
    ligand_current := 1, receptor_current := 1 }

/-- A cone of radius 1 whose current position coincides with the origin, with
levels 2 and 3. -/
noncomputable def gcC : GrowthCone :=
  { id := 2, size := 1, pos_current := (0, 0), pos_new := (0, 0),
    ligand_current := 2, receptor_current := 3 }

/-- A 5 × 5 substrate with zero matrices. -/
noncomputable def subA : Substrate :=
  { rows := 5, cols := 5, ligands := fun _ _ => 0, receptors := fun _ _ => 0 }

/-- A 5 × 5 substrate that differs from subA only at rows with index ≥ 3. -/
noncomputable def subB : Substrate :=
  { rows := 5, cols := 5,
    ligands := fun i _ => if 3 ≤ i then 5 else 0,
    receptors := fun i _ => if 3 ≤ i then 5 else 0 }

/-- A cone whose candidate position lies entirely outside the grid. -/
noncomputable def gcOff : GrowthCone :=
  { id := 7, size := 3, pos_current := (-7, 20), pos_new := (-7, 20),
    ligand_current := 1, receptor_current := 1 }

/-- Modelled from the spec: the substrate-type selector constant
cfg.CONTINUOUS_GRADIENTS from build.config, which is not under src; only the
distinctness of the ten selector constants matters, so they are modelled as
ten distinct opaque values. -/
def CONTINUOUS_GRADIENTS : ℕ := 0

/-- Modelled from the spec: the selector constant cfg.WEDGES. -/
def WEDGES : ℕ := 1

/-- Modelled from the spec: the selector constant cfg.STRIPE_FWD. -/
def STRIPE_FWD : ℕ := 2

/-- Modelled from the spec: the selector constant cfg.STRIPE_REW. -/
def STRIPE_REW : ℕ := 3

/-- Modelled from the spec: the selector constant cfg.STRIPE_DUO. -/
def STRIPE_DUO : ℕ := 4

/-- Modelled from the spec: the selector constant cfg.GAP_RR. -/
def GAP_RR : ℕ := 5

/-- Modelled from the spec: the selector constant cfg.GAP_RB. -/
def GAP_RB : ℕ := 6

/-- Modelled from the spec: the selector constant cfg.GAP_BR. -/
def GAP_BR : ℕ := 7

/-- Modelled from the spec: the selector constant cfg.GAP_BB. -/
def GAP_BB : ℕ := 8

/-- Modelled from the spec: the selector constant cfg.GAP_INV. -/
def GAP_INV : ℕ := 9

/-- The ten recognized substrate-type selector values. -/
def recognized_substrate_types : List ℕ :=
  [CONTINUOUS_GRADIENTS, WEDGES, STRIPE_FWD, STRIPE_REW, STRIPE_DUO,
   GAP_RR, GAP_RB, GAP_BR, GAP_BB, GAP_INV]

/-- The ten substrate variants build_substrate can construct. -/
inductive SubstrateKind
  | continuousGradient
  | wedge
  | stripeFwd
  | stripeRew
  | stripeDuo
  | gapRR
  | gapRB
  | gapBR
  | gapBB
  | gapInverted
deriving DecidableEq

/-- Modelled from the spec: a built substrate object (the Substrate classes
of model/substrate are not under src); it records the constructed variant,
the shape parameters, and whether initialize_substrate has run. -/
structure BuiltSubstrate where
  kind : SubstrateKind
  rows : ℕ
  cols : ℕ
  offset : ℤ
  min_value : ℝ
  max_value : ℝ
  initialized : Bool

/-- Modelled from the spec: substrate.initialize_substrate() fills the
matrices of an already-constructed substrate; here it marks it initialized. -/
def initialize_substrate (s : BuiltSubstrate) : BuiltSubstrate :=
  { s with initialized := true }

/-- The configuration fields read by build_substrate. -/
structure BuildConfig where
  rows : ℕ
  cols : ℕ
  gc_size : ℤ
  substrate_type : ℕ
  custom_first : ℝ
  custom_second : ℝ

/-- Embeds build_substrate: dispatches on the substrate-type selector over
the ten recognized constants, constructs the matching substrate variant and
then initializes it; an unrecognized selector raises
ValueError("SubstrateType unknown") before any substrate is constructed. -/
def build_substrate (config : BuildConfig) : Except String BuiltSubstrate :=
  let rows := config.rows
  let cols := config.cols
  let offset := config.gc_size
  let substrate_type := config.substrate_type
  let min_value := config.custom_first
  let max_value := config.custom_second
  if substrate_type = CONTINUOUS_GRADIENTS then
    .ok (initialize_substrate ⟨.continuousGradient, rows, cols, offset, min_value, max_value, false⟩)
  else if substrate_type = WEDGES then
    .ok (initialize_substrate ⟨.wedge, rows, cols, offset, min_value, max_value, false⟩)
  else if substrate_type = STRIPE_FWD then
    .ok (initialize_substrate ⟨.stripeFwd, rows, cols, offset, min_value, max_value, false⟩)
  else if substrate_type = STRIPE_REW then
    .ok (initialize_substrate ⟨.stripeRew, rows, cols, offset, min_value, max_value, false⟩)
  else if substrate_type = STRIPE_DUO then
    .ok (initialize_substrate ⟨.stripeDuo, rows, cols, offset, min_value, max_value, false⟩)
  else if substrate_type = GAP_RR then
    .ok (initialize_substrate ⟨.gapRR, rows, cols, offset, min_value, max_value, false⟩)
  else if substrate_type = GAP_RB then
    .ok (initialize_substrate ⟨.gapRB, rows, cols, offset, min_value, max_value, false⟩)
  else if substrate_type = GAP_BR then
    .ok (initialize_substrate ⟨.gapBR, rows, cols, offset, min_value, max_value, false⟩)
  else if substrate_type = GAP_BB then
    .ok (initialize_substrate ⟨.gapBB, rows, cols, offset, min_value, max_value, false⟩)
  else if substrate_type = GAP_INV then
    .ok (initialize_substrate ⟨.gapInverted, rows, cols, offset, min_value, max_value, false⟩)
  else
    .error "SubstrateType unknown"

/-- A configuration selecting the wedge substrate. -/
noncomputable def configOK : BuildConfig :=
  { rows := 100, cols := 100, gc_size := 5, substrate_type := WEDGES,
    custom_first := 0, custom_second := 1 }

/-- A configuration with an unrecognized substrate-type selector. -/
noncomputable def configBad : BuildConfig :=
  { rows := 100, cols := 100, gc_size := 5, substrate_type := 99,
    custom_first := 0, custom_second := 1 }

/-- Embeds np.linspace(0, 1, n) at index i: i / (n − 1); for n = 1 numpy
returns [0], which division by zero = 0 reproduces. -/
noncomputable def linspace01 (n i : ℕ) : ℝ := (i : ℝ) / ((n : ℝ) - 1)

/-- Embeds receptor_gradient = np.linspace(0, 1, gc_count) ** 1.2 (numpy `**`
on these nonnegative floats is the real power). -/
noncomputable def receptor_gradient (gc_count : ℕ) : List ℝ :=
  (List.range gc_count).map (fun i => linspace01 gc_count i ^ (1.2 : ℝ))

/-- Embeds receptors = 0.01 + receptor_gradient * 0.99 (elementwise). -/
noncomputable def receptors_list (gc_count : ℕ) : List ℝ :=
  (receptor_gradient gc_count).map (fun g => 0.01 + g * 0.99)

/-- Embeds ligands = (0.01 + receptor_gradient * 0.99)[::-1]: the receptor
sequence reversed. -/
noncomputable def ligands_list (gc_count : ℕ) : List ℝ :=
  (receptors_list gc_count).reverse

/-- Embeds y_positions = np.linspace(size, rows - 1 + size, gc_count,
dtype=int): evenly spaced values truncated to integers (the values are
nonnegative in use, where truncation and floor agree). -/
noncomputable def y_positions (size : ℤ) (rows gc_count : ℕ) : List ℤ :=
  (List.range gc_count).map (fun i => ⌊(size : ℝ) + linspace01 gc_count i * ((rows : ℝ) - 1)⌋)

/-- Modelled from the spec: the GrowthCone constructor (model/growth_cone is
not under src) stores the start position as both current and candidate
position, with the given size, levels and id. -/
noncomputable def mkGrowthCone (pos : ℤ × ℤ) (size : ℤ) (ligand receptor : ℝ)
    (num : ℕ) : GrowthCone :=
  { id := num, size := size, pos_current := pos, pos_new := pos,
    ligand_current := ligand, receptor_current := receptor }

/-- Embeds initialize_growth_cones: cone i is constructed at
(size, y_positions[i]) with ligand ligands[i], receptor receptors[i] and
id i. -/
noncomputable def initialize_growth_cones (gc_count : ℕ) (size : ℤ) (rows : ℕ) :
    List GrowthCone :=
  (List.range gc_count).map (fun i =>
    mkGrowthCone (size, (y_positions size rows gc_count).getD i 0) size
      ((ligands_list gc_count).getD i 0) ((receptors_list gc_count).getD i 0) i)

/-- Distance between real points is nonnegative. -/
theorem euclidean_distance_nonneg (p q : ℝ × ℝ) : 0 ≤ euclidean_distance p q :=
  Real.sqrt_nonneg _

/-- Distance of a point to itself is zero. -/
theorem euclidean_distance_self (p : ℝ × ℝ) : euclidean_distance p p = 0 := by
  simp [euclidean_distance]

/-- C3: for every pair of centers and radius r > 0, with d the Euclidean
distance between the centers: intersection_area is r² · π when d = 0, it is 0
whenever d ≥ 2r, and for 0 < d < 2r it equals
1.5 · (r² · arccos(x/r) − x·y) with x = d/2 and y = √(r² − x²) — the
empirical 1.5 factor reproduced exactly. -/
theorem C3_intersection_area (c1 c2 : ℤ × ℤ) (r : ℤ) (hr : 0 < r) :
    (euclidean_distance (toR c1) (toR c2) = 0 →
      intersection_area c1 c2 r = (r : ℝ) ^ 2 * Real.pi)
    ∧ (2 * (r : ℝ) ≤ euclidean_distance (toR c1) (toR c2) →
      intersection_area c1 c2 r = 0)
    ∧ (0 < euclidean_distance (toR c1) (toR c2) →
      euclidean_distance (toR c1) (toR c2) < 2 * (r : ℝ) →
      intersection_area c1 c2 r =
        1.5 * ((r : ℝ) ^ 2 * Real.arccos (euclidean_distance (toR c1) (toR c2) / 2 / (r : ℝ))
          - euclidean_distance (toR c1) (toR c2) / 2
            * Real.sqrt ((r : ℝ) ^ 2 - (euclidean_distance (toR c1) (toR c2) / 2) ^ 2))) := by
  set d := euclidean_distance (toR c1) (toR c2) with hd
  have hrR : (0 : ℝ) < (r : ℝ) := by exact_mod_cast hr
  refine ⟨?_, ?_, ?_⟩
  · intro h0
    simp only [intersection_area, ← hd, h0]
    norm_num
    exact Or.inl (by ring)
  · intro hge
    have hne : d ≠ 0 := by nlinarith
    by_cases hgt : (r : ℝ) * 2 < d
    · simp only [intersection_area, ← hd, if_neg hne, if_pos hgt]
    · -- here d = 2r exactly: the lens formula evaluates to 0
      have heq : d = 2 * (r : ℝ) := le_antisymm (by linarith) hge
      have hx : d ^ 2 / (2 * d) = (r : ℝ) := by
        rw [heq]; field_simp; ring
      simp only [intersection_area, ← hd, if_neg hne, if_neg hgt]
      rw [hx]
      have : Real.arccos ((r : ℝ) / (r : ℝ)) = 0 := by
        rw [div_self (ne_of_gt hrR), Real.arccos_one]
      rw [this]
      have : (r : ℝ) ^ 2 - (r : ℝ) ^ 2 = 0 := by ring
      rw [this, Real.sqrt_zero]
      ring
  · intro hpos hlt
    have hne : d ≠ 0 := ne_of_gt hpos
    have hgt : ¬ ((r : ℝ) * 2 < d) := by linarith
    have hx : d ^ 2 / (2 * d) = d / 2 := by
      field_simp; ring
    simp only [intersection_area, ← hd, if_neg hne, if_neg hgt]
    rw [hx]
    ring

/-- Witness for C3 at concrete inputs: coincident centers with r = 1 give
area π, and centers at distance 2 = 2r give area 0. -/
theorem C3_intersection_area_witness :
    intersection_area (0, 0) (0, 0) 1 = (1 : ℝ) ^ 2 * Real.pi
    ∧ intersection_area (0, 0) (2, 0) 1 = 0 := by
  constructor
  · have h := (C3_intersection_area (0, 0) (0, 0) 1 (by norm_num)).1
      (euclidean_distance_self _)
    simpa using h
  · have hdist : euclidean_distance (toR (0, 0)) (toR (2, 0)) = 2 := by
      have : ((2 : ℝ) - 0) ^ 2 + ((0 : ℝ) - 0) ^ 2 = 2 ^ 2 := by norm_num
      simp only [euclidean_distance, toR]
      norm_num
      rw [show (4 : ℝ) = 2 ^ 2 by norm_num]
      exact Real.sqrt_sq (by norm_num)
    have h := (C3_intersection_area (0, 0) (2, 0) 1 (by norm_num)).2.1
      (by rw [hdist]; norm_num)
    simpa using h

/-- C1: calculate_potential computes exactly the claimed composition:
flag-gated FT and FF pairs, gated forward and reverse signals, rounding to 6
decimals, and the absolute log difference with zero signals floored to
0.0001, with the both-zero case yielding 0. -/
theorem C1_calculate_potential_eq_spec (gc : GrowthCone) (gcs : List GrowthCone)
    (substrate : Substrate) (ff_coef : ℝ)
    (forward_on reverse_on ff_inter_on ft_inter_on : Bool) :
    calculate_potential gc gcs substrate ff_coef forward_on reverse_on ff_inter_on ft_inter_on =
    calculate_potential_spec gc gcs substrate ff_coef forward_on reverse_on ff_inter_on ft_inter_on := by
  simp only [calculate_potential, calculate_potential_spec, forward_sig, reverse_sig,
    ft_terms, ff_terms]

/-- C6: whenever both signals round (to 6 decimals) to exactly 0,
calculate_potential returns 0; the log branch is never reached. -/
theorem C6_zero_signals (gc : GrowthCone) (gcs : List GrowthCone)
    (substrate : Substrate) (ff_coef : ℝ)
    (forward_on reverse_on ff_inter_on ft_inter_on : Bool)
    (hf : round6 (forward_sig gc gcs substrate ff_coef forward_on ff_inter_on ft_inter_on) = 0)
    (hr : round6 (reverse_sig gc gcs substrate ff_coef reverse_on ff_inter_on ft_inter_on) = 0) :
    calculate_potential gc gcs substrate ff_coef forward_on reverse_on ff_inter_on ft_inter_on = 0 := by
  simp [calculate_potential, hf, hr]

/-- Witness for C6: a cone with receptor_current = ligand_current = 0 and
both interaction flags off yields potential 0. -/
theorem C6_zero_signals_witness :
    calculate_potential zeroGC [] trivialSubstrate 1 true true false false = 0 := by
  apply C6_zero_signals
  · simp [forward_sig, ft_terms, ff_terms, zeroGC, round6]
  · simp [reverse_sig, ft_terms, ff_terms, zeroGC, round6]

/-- Folding with a body that commutes with swapping the accumulator pair
turns a swapped initial pair into the swap of the fold. -/
theorem foldl_swap_pair {α : Type} (l : List α) (f g : (ℝ × ℝ) → α → ℝ × ℝ)
    (h : ∀ p a, g (p.2, p.1) a = ((f p a).2, (f p a).1)) (init : ℝ × ℝ) :
    l.foldl g (init.2, init.1) = ((l.foldl f init).2, (l.foldl f init).1) := by
  induction l generalizing init with
  | nil => rfl
  | cons x xs ih =>
    simp only [List.foldl_cons, h]
    exact ih (f init x)

/-- swapGC keeps the id. -/
@[simp] theorem swapGC_id (gc : GrowthCone) : (swapGC gc).id = gc.id := rfl

/-- swapGC keeps the size. -/
@[simp] theorem swapGC_size (gc : GrowthCone) : (swapGC gc).size = gc.size := rfl

/-- swapGC keeps the current position. -/
@[simp] theorem swapGC_pos_current (gc : GrowthCone) :
    (swapGC gc).pos_current = gc.pos_current := rfl

/-- swapGC keeps the candidate position. -/
@[simp] theorem swapGC_pos_new (gc : GrowthCone) : (swapGC gc).pos_new = gc.pos_new := rfl

/-- swapGC puts the receptor level into the ligand slot. -/
@[simp] theorem swapGC_ligand_current (gc : GrowthCone) :
    (swapGC gc).ligand_current = gc.receptor_current := rfl

/-- swapGC puts the ligand level into the receptor slot. -/
@[simp] theorem swapGC_receptor_current (gc : GrowthCone) :
    (swapGC gc).receptor_current = gc.ligand_current := rfl

/-- swapSubstrate keeps the shape, so the bounding box is unchanged. -/
@[simp] theorem bounding_box_swapSubstrate (p : ℤ × ℤ) (sz : ℤ) (s : Substrate) :
    bounding_box p sz (swapSubstrate s) = bounding_box p sz s := rfl

/-- swapSubstrate puts the receptor matrix into the ligand slot. -/
@[simp] theorem swapSubstrate_ligands (s : Substrate) :
    (swapSubstrate s).ligands = s.receptors := rfl

/-- swapSubstrate puts the ligand matrix into the receptor slot. -/
@[simp] theorem swapSubstrate_receptors (s : Substrate) :
    (swapSubstrate s).receptors = s.ligands := rfl

/-- Swapping the substrate matrices swaps the FT interaction pair. -/
theorem ft_interaction_swap (gc : GrowthCone) (s : Substrate) :
    ft_interaction (swapGC gc) (swapSubstrate s) =
    ((ft_interaction gc s).2, (ft_interaction gc s).1) := by
  simp only [ft_interaction, bounding_box_swapSubstrate, swapSubstrate_ligands,
    swapSubstrate_receptors, swapGC_pos_new, swapGC_size]
  exact foldl_swap_pair _ _ _ (fun p a => by
    dsimp only
    split <;> rfl) (0, 0)

/-- Swapping every cone's levels swaps the FF interaction pair. -/
theorem ff_interaction_swap (gc : GrowthCone) (gcs : List GrowthCone) :
    ff_interaction (swapGC gc) (gcs.map swapGC) =
    ((ff_interaction gc gcs).2, (ff_interaction gc gcs).1) := by
  simp only [ff_interaction, List.foldl_map, swapGC_id, swapGC_size, swapGC_pos_new,
    swapGC_pos_current, swapGC_ligand_current, swapGC_receptor_current]
  exact foldl_swap_pair _ _ _ (fun p a => by
    dsimp only
    split
    · rfl
    · split <;> rfl) (0, 0)

/-- The forward signal of the swapped configuration is the reverse signal of
the original. -/
theorem forward_sig_swap (gc : GrowthCone) (gcs : List GrowthCone) (s : Substrate)
    (ff_coef : ℝ) (on_flag ff_inter_on ft_inter_on : Bool) :
    forward_sig (swapGC gc) (gcs.map swapGC) (swapSubstrate s) ff_coef
      on_flag ff_inter_on ft_inter_on =
    reverse_sig gc gcs s ff_coef on_flag ff_inter_on ft_inter_on := by
  simp only [forward_sig, reverse_sig, ft_terms, ff_terms,
    ft_interaction_swap, ff_interaction_swap, swapGC_ligand_current, swapGC_receptor_current]
  cases ft_inter_on <;> cases ff_inter_on <;> cases on_flag <;> simp

/-- The reverse signal of the swapped configuration is the forward signal of
the original. -/
theorem reverse_sig_swap (gc : GrowthCone) (gcs : List GrowthCone) (s : Substrate)
    (ff_coef : ℝ) (on_flag ff_inter_on ft_inter_on : Bool) :
    reverse_sig (swapGC gc) (gcs.map swapGC) (swapSubstrate s) ff_coef
      on_flag ff_inter_on ft_inter_on =
    forward_sig gc gcs s ff_coef on_flag ff_inter_on ft_inter_on := by
  simp only [forward_sig, reverse_sig, ft_terms, ff_terms,
    ft_interaction_swap, ff_interaction_swap, swapGC_ligand_current, swapGC_receptor_current]
  cases ft_inter_on <;> cases ff_inter_on <;> cases on_flag <;> simp

/-- C7: calculate_potential is invariant under exchanging the forward and
reverse roles: swapping the cone's levels, the substrate matrices, every
other cone's levels, and the forward_on/reverse_on flags yields an equal
result. -/
theorem C7_forward_reverse_invariance (gc : GrowthCone) (gcs : List GrowthCone)
    (substrate : Substrate) (ff_coef : ℝ)
    (forward_on reverse_on ff_inter_on ft_inter_on : Bool) :
    calculate_potential (swapGC gc) (gcs.map swapGC) (swapSubstrate substrate) ff_coef
      reverse_on forward_on ff_inter_on ft_inter_on =
    calculate_potential gc gcs substrate ff_coef
      forward_on reverse_on ff_inter_on ft_inter_on := by
  simp only [calculate_potential, forward_sig_swap, reverse_sig_swap]
  by_cases hf : round6 (forward_sig gc gcs substrate ff_coef forward_on ff_inter_on ft_inter_on) = 0 <;>
    by_cases hr : round6 (reverse_sig gc gcs substrate ff_coef reverse_on ff_inter_on ft_inter_on) = 0 <;>
      simp [hf, hr, abs_sub_comm]

/-- Monotonicity of calculate_ff_coef in the step argument. -/
theorem calculate_ff_coef_mono {N steep shift height s1 s2 : ℝ} (hN : 0 < N)
    (hst : 0 < steep) (hsh : 0 < shift) (hh : 0 < height)
    (h1 : 0 ≤ s1) (h12 : s1 ≤ s2) :
    calculate_ff_coef s1 N steep shift height ≤ calculate_ff_coef s2 N steep shift height := by
  simp only [calculate_ff_coef]
  have hb1 : 0 ≤ (s1 + N * 0.01) / N * shift := by positivity
  have hble : (s1 + N * 0.01) / N * shift ≤ (s2 + N * 0.01) / N * shift := by
    apply mul_le_mul_of_nonneg_right _ (le_of_lt hsh)
    apply (div_le_div_iff_of_pos_right hN).mpr
    linarith
  have hrle : ((s1 + N * 0.01) / N * shift) ^ steep ≤ ((s2 + N * 0.01) / N * shift) ^ steep :=
    Real.rpow_le_rpow hb1 hble (le_of_lt hst)
  have hmax : max (((s1 + N * 0.01) / N * shift) ^ steep) 1e-10 ≤
      max (((s2 + N * 0.01) / N * shift) ^ steep) 1e-10 :=
    max_le_max hrle (le_refl _)
  have hexp : Real.exp (-(max (((s2 + N * 0.01) / N * shift) ^ steep) 1e-10)) ≤
      Real.exp (-(max (((s1 + N * 0.01) / N * shift) ^ steep) 1e-10)) :=
    Real.exp_le_exp.mpr (by linarith)
  apply mul_le_mul_of_nonneg_right _ (le_of_lt hh)
  linarith

/-- calculate_ff_coef is strictly positive and at most height. -/
theorem calculate_ff_coef_bounds {N steep shift height s : ℝ} (hh : 0 < height) :
    0 < calculate_ff_coef s N steep shift height ∧
    calculate_ff_coef s N steep shift height ≤ height := by
  simp only [calculate_ff_coef]
  have hm : (0 : ℝ) < max (((s + N * 0.01) / N * shift) ^ steep) 1e-10 :=
    lt_of_lt_of_le (by norm_num) (le_max_right _ _)
  have he1 : Real.exp (-(max (((s + N * 0.01) / N * shift) ^ steep) 1e-10)) < 1 := by
    rw [← Real.exp_zero]
    exact Real.exp_lt_exp.mpr (by linarith)
  have he2 : 0 < Real.exp (-(max (((s + N * 0.01) / N * shift) ^ steep) 1e-10)) :=
    Real.exp_pos _
  constructor
  · apply mul_pos _ hh
    linarith
  · calc (-Real.exp (-(max (((s + N * 0.01) / N * shift) ^ steep) 1e-10)) + 1) * height
        ≤ 1 * height := mul_le_mul_of_nonneg_right (by linarith) (le_of_lt hh)
    _ = height := one_mul height

/-- C5: for positive num_steps, steepness, shift and height, the FF
coefficient is monotone non-decreasing in the step over step ≥ 0 and its
value lies in (0, height]; in particular
0 < coef(0) ≤ coef(num_steps) ≤ height. -/
theorem C5_ff_coef_monotone_bounded (N steep shift height : ℝ) (hN : 0 < N)
    (hst : 0 < steep) (hsh : 0 < shift) (hh : 0 < height) :
    (∀ s1 s2 : ℝ, 0 ≤ s1 → s1 ≤ s2 →
      calculate_ff_coef s1 N steep shift height ≤ calculate_ff_coef s2 N steep shift height)
    ∧ (∀ s : ℝ, 0 ≤ s →
      0 < calculate_ff_coef s N steep shift height ∧
      calculate_ff_coef s N steep shift height ≤ height)
    ∧ (0 < calculate_ff_coef 0 N steep shift height
      ∧ calculate_ff_coef 0 N steep shift height ≤ calculate_ff_coef N N steep shift height
      ∧ calculate_ff_coef N N steep shift height ≤ height) :=
  ⟨fun _ _ h1 h12 => calculate_ff_coef_mono hN hst hsh hh h1 h12,
   fun _ _ => calculate_ff_coef_bounds hh,
   (calculate_ff_coef_bounds hh).1,
   calculate_ff_coef_mono hN hst hsh hh (le_refl 0) (le_of_lt hN),
   (calculate_ff_coef_bounds hh).2⟩

/-- Witness for C5 at num_steps = 10, steepness = shift = height = 1, with
the monotonicity instance 0 ≤ 1. -/
theorem C5_ff_coef_monotone_bounded_witness :
    calculate_ff_coef 0 10 1 1 1 ≤ calculate_ff_coef 1 10 1 1 1
    ∧ (0 < calculate_ff_coef 2 10 1 1 1 ∧ calculate_ff_coef 2 10 1 1 1 ≤ 1)
    ∧ (0 < calculate_ff_coef 0 10 1 1 1
      ∧ calculate_ff_coef 0 10 1 1 1 ≤ calculate_ff_coef 10 10 1 1 1
      ∧ calculate_ff_coef 10 10 1 1 1 ≤ 1) := by
  have h := C5_ff_coef_monotone_bounded 10 1 1 1 (by norm_num) (by norm_num)
    (by norm_num) (by norm_num)
  exact ⟨h.1 0 1 (by norm_num) (by norm_num), h.2.1 2 (by norm_num), h.2.2⟩

/-- A fold that conditionally adds a pair of contributions equals the initial
pair plus the sums over the kept elements. -/
theorem foldl_guarded_sum {α : Type} (l : List α) (q : α → Prop) [DecidablePred q]
    (f g : α → ℝ) (init : ℝ × ℝ) :
    l.foldl (fun sums a => if q a then (sums.1 + f a, sums.2 + g a) else sums) init =
    (init.1 + ((l.filter (fun a => decide (q a))).map f).sum,
     init.2 + ((l.filter (fun a => decide (q a))).map g).sum) := by
  induction l generalizing init with
  | nil => simp
  | cons x xs ih =>
    by_cases hx : q x
    · simp only [List.foldl_cons, if_pos hx, List.filter_cons, decide_eq_true hx,
        if_pos rfl, List.map_cons, List.sum_cons]
      rw [ih]
      simp [add_assoc]
    · simp only [List.foldl_cons, if_neg hx, List.filter_cons]
      rw [ih]
      simp [hx]

/-- C4: the FF interaction is exactly the claimed filtered accumulation, a
neighbour at distance exactly 2 · size contributes nothing, and a coincident
neighbour contributes the full circle area size² · π scaled by its levels. -/
theorem C4_ff_interaction :
    (∀ (gc1 : GrowthCone) (gcs : List GrowthCone),
      ff_interaction gc1 gcs = ff_interaction_spec gc1 gcs)
    ∧ (∀ gc1 gc2 : GrowthCone,
      euclidean_distance (toR gc2.pos_current) (toR gc1.pos_new) = (gc1.size : ℝ) * 2 →
      ff_interaction gc1 [gc2] = (0, 0))
    ∧ (∀ gc1 gc2 : GrowthCone, 0 < gc1.size → gc1.id ≠ gc2.id →
      gc2.pos_current = gc1.pos_new →
      ff_interaction gc1 [gc2] =
        ((gc1.size : ℝ) ^ 2 * Real.pi * gc2.ligand_current,
         (gc1.size : ℝ) ^ 2 * Real.pi * gc2.receptor_current)) := by
  refine ⟨?_, ?_, ?_⟩
  · intro gc1 gcs
    have hbody : (fun (sums : ℝ × ℝ) (gc2 : GrowthCone) =>
        if gc1.id = gc2.id then sums
        else
          if euclidean_distance (toR gc2.pos_current) (toR gc1.pos_new) < (gc1.size : ℝ) * 2 then
            (sums.1 + intersection_area gc1.pos_new gc2.pos_current gc1.size * gc2.ligand_current,
             sums.2 + intersection_area gc1.pos_new gc2.pos_current gc1.size * gc2.receptor_current)
          else sums) =
        (fun (sums : ℝ × ℝ) (gc2 : GrowthCone) =>
          if gc1.id ≠ gc2.id ∧
              euclidean_distance (toR gc2.pos_current) (toR gc1.pos_new) < (gc1.size : ℝ) * 2 then
            (sums.1 + intersection_area gc1.pos_new gc2.pos_current gc1.size * gc2.ligand_current,
             sums.2 + intersection_area gc1.pos_new gc2.pos_current gc1.size * gc2.receptor_current)
          else sums) := by
      funext sums gc2
      by_cases hid : gc1.id = gc2.id
      · simp [hid]
      · by_cases hd : euclidean_distance (toR gc2.pos_current) (toR gc1.pos_new) < (gc1.size : ℝ) * 2 <;>
          simp [hid, hd]
    show List.foldl _ (0, 0) gcs = _
    rw [hbody, foldl_guarded_sum gcs
      (fun gc2 => gc1.id ≠ gc2.id ∧
        euclidean_distance (toR gc2.pos_current) (toR gc1.pos_new) < (gc1.size : ℝ) * 2)
      (fun gc2 => intersection_area gc1.pos_new gc2.pos_current gc1.size * gc2.ligand_current)
      (fun gc2 => intersection_area gc1.pos_new gc2.pos_current gc1.size * gc2.receptor_current)
      (0, 0)]
    simp [ff_interaction_spec]
  · intro gc1 gc2 hdist
    show List.foldl _ (0, 0) [gc2] = _
    simp only [List.foldl_cons, List.foldl_nil]
    by_cases hid : gc1.id = gc2.id
    · simp [hid]
    · have : ¬ euclidean_distance (toR gc2.pos_current) (toR gc1.pos_new) < (gc1.size : ℝ) * 2 := by
        rw [hdist]
        exact lt_irrefl _
      simp [hid, this]
  · intro gc1 gc2 hsize hid hpos
    show List.foldl _ (0, 0) [gc2] = _
    simp only [List.foldl_cons, List.foldl_nil]
    have hd0 : euclidean_distance (toR gc2.pos_current) (toR gc1.pos_new) = 0 := by
      rw [hpos]; exact euclidean_distance_self _
    have hlt : euclidean_distance (toR gc2.pos_current) (toR gc1.pos_new) < (gc1.size : ℝ) * 2 := by
      rw [hd0]
      have : (0 : ℝ) < (gc1.size : ℝ) := by exact_mod_cast hsize
      linarith
    have harea : intersection_area gc1.pos_new gc2.pos_current gc1.size =
        (gc1.size : ℝ) * (gc1.size : ℝ) * Real.pi := by
      have hd0' : euclidean_distance (toR gc1.pos_new) (toR gc2.pos_current) = 0 := by
        rw [hpos]; exact euclidean_distance_self _
      simp [intersection_area, hd0']
    simp only [if_neg hid, if_pos hlt, harea]
    simp only [Prod.mk.injEq]
    constructor <;> ring

/-- Witness for C4: the empty neighbour list, a neighbour at distance exactly
2, and a coincident neighbour with levels 2 and 3, all with radius 1. -/
theorem C4_ff_interaction_witness :
    ff_interaction gcA [] = ff_interaction_spec gcA []
    ∧ ff_interaction gcA [gcB] = (0, 0)
    ∧ ff_interaction gcA [gcC] =
      ((gcA.size : ℝ) ^ 2 * Real.pi * gcC.ligand_current,
       (gcA.size : ℝ) ^ 2 * Real.pi * gcC.receptor_current) := by
  refine ⟨C4_ff_interaction.1 gcA [], C4_ff_interaction.2.1 gcA gcB ?_,
    C4_ff_interaction.2.2 gcA gcC (by norm_num [gcA]) (by norm_num [gcA, gcC])
      (by norm_num [gcA, gcC])⟩
  have : euclidean_distance (toR (2, 0)) (toR (0, 0)) = 2 := by
    simp only [euclidean_distance, toR]
    norm_num
    rw [show (4 : ℝ) = 2 ^ 2 by norm_num]
    exact Real.sqrt_sq (by norm_num)
  simp only [gcA, gcB]
  rw [this]
  norm_num

/-- A fold that skips elements satisfying the guard equals the initial pair
plus the sums over the elements where the guard fails. -/
theorem foldl_skip_sum {α : Type} (l : List α) (p : α → Prop) [DecidablePred p]
    (f g : α → ℝ) (init : ℝ × ℝ) :
    l.foldl (fun sums a => if p a then sums else (sums.1 + f a, sums.2 + g a)) init =
    (init.1 + ((l.filter (fun a => decide (¬ p a))).map f).sum,
     init.2 + ((l.filter (fun a => decide (¬ p a))).map g).sum) := by
  induction l generalizing init with
  | nil => simp
  | cons x xs ih =>
    by_cases hx : p x
    · simp only [List.foldl_cons, if_pos hx, List.filter_cons]
      rw [ih]
      simp [hx]
    · simp only [List.foldl_cons, if_neg hx, List.filter_cons]
      rw [ih]
      simp [hx, add_assoc]

/-- Membership in the integer range [a, b). -/
theorem mem_intRange {a b i : ℤ} : i ∈ intRange a b ↔ a ≤ i ∧ i < b := by
  constructor
  · intro h
    obtain ⟨k, hk, rfl⟩ := List.mem_map.mp h
    rw [List.mem_range] at hk
    omega
  · intro h
    apply List.mem_map.mpr
    exact ⟨(i - a).toNat, List.mem_range.mpr (by omega), by omega⟩

/-- Membership in the FT cell list: exactly the pairs inside the half-open
y- and x-ranges of the borders. -/
theorem mem_ftCells {borders : ℤ × ℤ × ℤ × ℤ} {c : ℤ × ℤ} :
    c ∈ ftCells borders ↔
      borders.2.2.1 ≤ c.1 ∧ c.1 < borders.2.2.2 ∧ borders.1 ≤ c.2 ∧ c.2 < borders.2.1 := by
  obtain ⟨i, j⟩ := c
  simp only [ftCells, List.mem_flatMap, List.mem_map, mem_intRange]
  constructor
  · rintro ⟨i', hi, j', hj, heq⟩
    obtain ⟨rfl, rfl⟩ := Prod.mk.injEq .. ▸ heq
    exact ⟨hi.1, hi.2, hj.1, hj.2⟩
  · rintro ⟨h1, h2, h3, h4⟩
    exact ⟨i, ⟨h1, h2⟩, j, ⟨h3, h4⟩, rfl⟩

/-- C2: the FT interaction equals the claimed circular-footprint sum (center
at the midpoint of the clipped bounding box, radius half the clipped box's
edge length, cells filtered by distance ≤ radius), and it reads no cell
outside the clipped box: two substrates of equal shape that agree on the box
cells produce equal FT sums. -/
theorem C2_ft_footprint :
    (∀ (gc : GrowthCone) (s : Substrate), ft_interaction gc s = ft_interaction_spec gc s)
    ∧ (∀ (gc : GrowthCone) (s1 s2 : Substrate), s1.rows = s2.rows → s1.cols = s2.cols →
      (∀ i j : ℤ, (bounding_box gc.pos_new gc.size s1).2.2.1 ≤ i →
        i < (bounding_box gc.pos_new gc.size s1).2.2.2 →
        (bounding_box gc.pos_new gc.size s1).1 ≤ j →
        j < (bounding_box gc.pos_new gc.size s1).2.1 →
        s1.ligands i j = s2.ligands i j ∧ s1.receptors i j = s2.receptors i j) →
      ft_interaction gc s1 = ft_interaction gc s2) := by
  constructor
  · intro gc s
    simp only [ft_interaction, ft_interaction_spec]
    rw [foldl_skip_sum]
    simp only [zero_add, not_lt]

  · intro gc s1 s2 hr hc hagree
    have hbb : bounding_box gc.pos_new gc.size s2 = bounding_box gc.pos_new gc.size s1 := by
      simp [bounding_box, hr, hc]
    simp only [ft_interaction, hbb]
    apply List.foldl_ext
    intro sums c hc
    rw [mem_ftCells] at hc
    obtain ⟨hlig, hrcp⟩ := hagree c.1 c.2 hc.1 hc.2.1 hc.2.2.1 hc.2.2.2
    split_ifs with hguard
    · rfl
    · rw [hlig, hrcp]

/-- Witness for C2 at a concrete cone and two concrete substrates that agree
on the clipped box. -/
theorem C2_ft_footprint_witness :
    ft_interaction gcA subA = ft_interaction_spec gcA subA
    ∧ ft_interaction gcA subA = ft_interaction gcA subB := by
  refine ⟨C2_ft_footprint.1 gcA subA, C2_ft_footprint.2 gcA subA subB rfl rfl ?_⟩
  intro i j h1 h2 h3 h4
  simp only [bounding_box, gcA, subA] at h2
  constructor <;> simp only [subA, subB] <;> rw [if_neg (by omega)]

/-- An Option-valued fold that succeeds pointwise computes the plain fold. -/
theorem foldlM_option_eq_some {α β : Type} (l : List α) (f : β → α → β)
    (g : β → α → Option β)
    (h : ∀ acc a, a ∈ l → g acc a = some (f acc a)) (init : β) :
    List.foldlM g init l = some (List.foldl f init l) := by
  induction l generalizing init with
  | nil => rfl
  | cons x xs ih =>
    rw [List.foldlM_cons, h init x (List.mem_cons_self x xs)]
    show List.foldlM g (f init x) xs = _
    exact ih (fun acc a ha => h acc a (List.mem_cons_of_mem x ha)) (f init x)

/-- C10: for a substrate of shape rows × cols with rows ≥ 1 and cols ≥ 1 and
any integer position and size, every cell visited by ft_interaction has its
first index in [0, rows − 1] and its second index in [0, cols − 1], and the
Option-checked variant of the iteration never fails: it returns exactly the
unchecked result. -/
theorem C10_ft_reads_in_bounds (gc : GrowthCone) (s : Substrate)
    (hrows : 1 ≤ s.rows) (hcols : 1 ≤ s.cols) :
    (∀ c ∈ ftCells (bounding_box gc.pos_new gc.size s),
      0 ≤ c.1 ∧ c.1 ≤ (s.rows : ℤ) - 1 ∧ 0 ≤ c.2 ∧ c.2 ≤ (s.cols : ℤ) - 1)
    ∧ ft_interaction_checked gc s = some (ft_interaction gc s) := by
  have hcell : ∀ c ∈ ftCells (bounding_box gc.pos_new gc.size s),
      0 ≤ c.1 ∧ c.1 ≤ (s.rows : ℤ) - 1 ∧ 0 ≤ c.2 ∧ c.2 ≤ (s.cols : ℤ) - 1 := by
    intro c hc
    rw [mem_ftCells] at hc
    simp only [bounding_box] at hc
    omega
  refine ⟨hcell, ?_⟩
  simp only [ft_interaction_checked, ft_interaction]
  apply foldlM_option_eq_some
  intro acc c hc
  split_ifs with hguard
  · rfl
  · have hb := hcell c hc
    simp only [Substrate.ligandAt, Substrate.receptorAt]
    rw [if_pos (by omega : 0 ≤ c.1 ∧ c.1 < (s.rows : ℤ) ∧ 0 ≤ c.2 ∧ c.2 < (s.cols : ℤ)),
      if_pos (by omega : 0 ≤ c.1 ∧ c.1 < (s.rows : ℤ) ∧ 0 ≤ c.2 ∧ c.2 < (s.cols : ℤ))]
    rfl

/-- Witness for C10: a cone fully off a 10 × 10 grid and a cone overlapping
the grid edge. -/
theorem C10_ft_reads_in_bounds_witness :
    ft_interaction_checked gcOff trivialSubstrate = some (ft_interaction gcOff trivialSubstrate)
    ∧ ft_interaction_checked gcA trivialSubstrate = some (ft_interaction gcA trivialSubstrate) := by
  exact ⟨(C10_ft_reads_in_bounds gcOff trivialSubstrate (by norm_num [trivialSubstrate])
      (by norm_num [trivialSubstrate])).2,
    (C10_ft_reads_in_bounds gcA trivialSubstrate (by norm_num [trivialSubstrate])
      (by norm_num [trivialSubstrate])).2⟩

/-- C8: build_substrate fails exactly on selectors outside the ten recognized
substrate types, with the fixed error raised before any substrate exists (the
error value carries no substrate), and on every recognized selector it
returns a fully initialized substrate. -/
theorem C8_build_substrate (config : BuildConfig) :
    (config.substrate_type ∈ recognized_substrate_types →
      ∃ s, build_substrate config = .ok s ∧ s.initialized = true)
    ∧ (config.substrate_type ∉ recognized_substrate_types →
      build_substrate config = .error "SubstrateType unknown") := by
  constructor
  · intro h
    have hinit : ∀ s, build_substrate config = .ok s → s.initialized = true := by
      intro s hs
      unfold build_substrate at hs
      dsimp only at hs
      repeat' split at hs
      all_goals first | (cases hs; rfl) | exact Except.noConfusion hs
    simp only [recognized_substrate_types, List.mem_cons, List.not_mem_nil, or_false] at h
    have hok : ∃ s, build_substrate config = .ok s := by
      obtain ⟨rows, cols, gc_size, st, c1, c2⟩ := config
      dsimp only at h
      rcases h with h | h | h | h | h | h | h | h | h | h <;> subst h <;> exact ⟨_, rfl⟩
    obtain ⟨s, hs⟩ := hok
    exact ⟨s, hs, hinit s hs⟩
  · intro h
    simp only [recognized_substrate_types, List.mem_cons, List.not_mem_nil, or_false,
      not_or] at h
    obtain ⟨h1, h2, h3, h4, h5, h6, h7, h8, h9, h10⟩ := h
    unfold build_substrate
    dsimp only
    rw [if_neg h1, if_neg h2, if_neg h3, if_neg h4, if_neg h5, if_neg h6, if_neg h7,
      if_neg h8, if_neg h9, if_neg h10]

/-- Witness for C8: the wedge selector builds an initialized substrate; the
unknown selector "lattice" produces the error. -/
theorem C8_build_substrate_witness :
    (∃ s, build_substrate configOK = .ok s ∧ s.initialized = true)
    ∧ build_substrate configBad = .error "SubstrateType unknown" :=
  ⟨(C8_build_substrate configOK).1
      (by simp [configOK, recognized_substrate_types]),
   (C8_build_substrate configBad).2
      (by simp [configBad, recognized_substrate_types, CONTINUOUS_GRADIENTS, WEDGES,
        STRIPE_FWD, STRIPE_REW, STRIPE_DUO, GAP_RR, GAP_RB, GAP_BR, GAP_BB, GAP_INV])⟩

/-- The receptor list has one entry per cone. -/
theorem receptors_list_length (N : ℕ) : (receptors_list N).length = N := by
  simp [receptors_list, receptor_gradient]

/-- The cone list has one entry per cone. -/
theorem initialize_growth_cones_length (N : ℕ) (size : ℤ) (rows : ℕ) :
    (initialize_growth_cones N size rows).length = N := by
  simp [initialize_growth_cones]

/-- The i-th entry of the receptor list. -/
theorem receptors_list_getD {N i : ℕ} (hi : i < N) :
    (receptors_list N).getD i 0 = 0.01 + ((i : ℝ) / ((N : ℝ) - 1)) ^ (1.2 : ℝ) * 0.99 := by
  simp [receptors_list, receptor_gradient, linspace01, List.getD_eq_getElem?_getD,
    List.getElem?_map, List.getElem?_range, hi]

/-- The i-th entry of the ligand list is the (N − 1 − i)-th receptor entry. -/
theorem ligands_list_getD {N i : ℕ} (hi : i < N) :
    (ligands_list N).getD i 0 =
      0.01 + (((N - 1 - i : ℕ) : ℝ) / ((N : ℝ) - 1)) ^ (1.2 : ℝ) * 0.99 := by
  have hlen : (receptors_list N).length = N := receptors_list_length N
  have hi' : i < (receptors_list N).length := by omega
  rw [ligands_list, List.getD_eq_getElem?_getD, List.getElem?_reverse (by simpa using hi'),
    hlen]
  have : N - 1 - i < N := by omega
  rw [show ((receptors_list N)[N - 1 - i]? : Option ℝ).getD 0 =
      (receptors_list N).getD (N - 1 - i) 0 from (List.getD_eq_getElem?_getD _ _ _).symm]
  exact receptors_list_getD this

/-- C9: for N ≥ 2 cones, cone i starts with receptor level
0.01 + (i/(N−1))^1.2 · 0.99 and ligand level
0.01 + ((N−1−i)/(N−1))^1.2 · 0.99 — the receptor sequence reversed. -/
theorem C9_initial_levels (N : ℕ) (size : ℤ) (rows : ℕ) (hN : 2 ≤ N) (i : ℕ)
    (hi : i < (initialize_growth_cones N size rows).length) :
    ((initialize_growth_cones N size rows).get ⟨i, hi⟩).receptor_current
      = 0.01 + ((i : ℝ) / ((N : ℝ) - 1)) ^ (1.2 : ℝ) * 0.99
    ∧ ((initialize_growth_cones N size rows).get ⟨i, hi⟩).ligand_current
      = 0.01 + (((N - 1 - i : ℕ) : ℝ) / ((N : ℝ) - 1)) ^ (1.2 : ℝ) * 0.99 := by
  have hiN : i < N := by
    have := initialize_growth_cones_length N size rows
    omega
  have hget : (initialize_growth_cones N size rows).get ⟨i, hi⟩ =
      mkGrowthCone (size, (y_positions size rows N).getD i 0) size
        ((ligands_list N).getD i 0) ((receptors_list N).getD i 0) i := by
    simp [initialize_growth_cones, List.get_eq_getElem]
  rw [hget]
  exact ⟨receptors_list_getD hiN, ligands_list_getD hiN⟩

/-- Witness for C9 at N = 2, i = 1 on a 10-row grid with size 2. -/
theorem C9_initial_levels_witness :
    ((initialize_growth_cones 2 2 10).get
        ⟨1, by rw [initialize_growth_cones_length]; omega⟩).receptor_current
      = 0.01 + (((1 : ℕ) : ℝ) / (((2 : ℕ) : ℝ) - 1)) ^ (1.2 : ℝ) * 0.99
    ∧ ((initialize_growth_cones 2 2 10).get
        ⟨1, by rw [initialize_growth_cones_length]; omega⟩).ligand_current
      = 0.01 + (((2 - 1 - 1 : ℕ) : ℝ) / (((2 : ℕ) : ℝ) - 1)) ^ (1.2 : ℝ) * 0.99 :=
  C9_initial_levels 2 2 10 (by norm_num) 1
    (by rw [initialize_growth_cones_length]; omega)

end RTP
